import Mathlib

/-!
Shallow embedding of the DPoS query facade in consensus/dpos/api.go of
go-themis: header resolution, the state-query pipeline, and the weighted
ranking step of GetAllProducers, together with theorems checking the
specification claims against it.

Addresses and raw call payloads are opaque (modelled as naturals and lists
of naturals); big.Int values are modelled as Lean Int with the exact
truncating conversions Int64 and Uint64 of the Go math/big package where
the code applies them.  Every facade operation returns its result together
with the list of call messages it sent to the evaluation collaborator
(dpos.Call), so that claims about which calls happen, and at which height,
are statable.  A Go panic (nil dereference, index out of range) is a
distinguished outcome.
-/

namespace DposApi

/-- Opaque account / contract address (common.Address). -/
abbrev Address := Nat

/-- Opaque byte string (ABI payloads and raw call output). -/
abbrev Bytes := List Nat

/-- Two to the sixty-fourth: the modulus of the Go uint64 conversions. -/
def U64 : Nat := 18446744073709551616

/-- Two to the sixty-third. -/
def I64HALF : Nat := 9223372036854775808

/-- Two-sided complement wrap of an integer into the int64 range,
as Go conversion to int64 behaves. -/
def wrapInt64 (n : Int) : Int :=
  ((n + (I64HALF : Int)) % (U64 : Int)) - (I64HALF : Int)

/-- Go math/big (x *Int).Int64(): take the low 64 bits of the absolute
value, reinterpret as int64, and negate (with int64 wrap) when x is
negative. -/
def bigInt64 (x : Int) : Int :=
  if x < 0 then wrapInt64 (-(wrapInt64 ((x.natAbs % U64 : Nat) : Int)))
  else wrapInt64 ((x.natAbs % U64 : Nat) : Int)

/-- Go math/big (x *Int).Uint64(): low 64 bits of the absolute value,
negated modulo two to the sixty-fourth when x is negative. -/
def bigUint64 (x : Int) : Nat :=
  if x < 0 then (U64 - x.natAbs % U64) % U64 else x.natAbs % U64

/-- A chain header as the facade reads it (types.Header): the block number
and the producer lists recorded in it. -/
structure Header where
  number : Nat
  activeProducers : List Address
  pendingProducers : List Address
  deriving DecidableEq, Repr

/-- The chain-reader collaborator (consensus.ChainReader): the current
header (possibly absent) and lookup of a header by number. -/
structure Chain where
  currentHeader : Option Header
  getHeaderByNumber : Nat → Option Header

/-- A read-only call message (core.NewCallMsg): target contract address,
encoded payload, evaluation height. -/
structure CallMsg where
  toAddr : Address
  data : Bytes
  height : Nat
  deriving DecidableEq, Repr

/-- The error values the facade can surface.  Each named constructor is
one distinct Go error value of api.go or of the dpos package; the
collaborator constructor carries an error propagated verbatim from
packing, calling or unpacking. -/
inductive ApiError where
  | invalidInput
  | unknownBlock
  | tooFewProducers
  | nullString
  | regContractResolution
  | voteContractResolution
  | collaborator (msg : String)
  deriving DecidableEq, Repr

/-- Outcome of a facade operation: a value, a returned error, or a Go
panic (nil dereference or index out of range). -/
inductive Res (α : Type) where
  | ok (a : α)
  | err (e : ApiError)
  | panic
  deriving DecidableEq, Repr

/-- One producer entry of the ranked answer (ProducerInfo). -/
structure ProducerInfo where
  addr : Address
  weight : Int
  deriving DecidableEq, Repr

/-- The ranked answer of GetAllProducers (ProducersInfo). -/
structure ProducersInfo where
  producers : List ProducerInfo
  size : Int
  deriving DecidableEq, Repr

/-- The answer of GetVoteInfo (Voteinfo). -/
structure Voteinfo where
  proxy : Address
  producers : List Address
  staked : Int
  weight : Int
  deriving DecidableEq, Repr

/-- The answer of GetProposal (ProposalInfo). -/
structure ProposalInfo where
  id : Int
  status : Bool
  proposer : Address
  proposeTime : Int
  maliciousBP : Address
  keys : List Bytes
  values : List Int
  flag : Nat
  approveVoteCount : Int
  disapproveCount : Int
  deriving DecidableEq, Repr

/-- The environment of one API value: the chain reader, the evaluation
collaborator dpos.Call as a pure function of the call message, the fixed
main governance contract address, and the ABI packing and unpacking
procedures the facade uses, each a pure function returning bytes or an
opaque error. -/
structure Env where
  chain : Chain
  call : CallMsg → Except String Bytes
  mainSystemContractAddr : Address
  packMainGetSystemContract : String → Except String Bytes
  unpackMainGetSystemContract : Bytes → Except String Address
  packRegGetAllProducersInfo : Except String Bytes
  unpackRegGetAllProducersInfo : Bytes → Except String (List Address × List Int × Int)
  packVoteGetVoteInfo : Address → Except String Bytes
  unpackVoteGetVoteInfo : Bytes → Except String (Address × List Address × Int × Int)
  packMainGetProposal : Except String Bytes
  unpackMainGetProposal : Bytes → Except String ProposalInfo

/-- Contract name constant regContract. -/
def regContractName : String := "system.regContract"

/-- Contract name constant voteContract. -/
def voteContractName : String := "system.voteContract"

/-- The header-resolution step shared verbatim by the five height-taking
facade operations: start from the current header; when a block number is
given and lies strictly between zero and the current height, fetch the
header by number; when it is negative or above the current height, fail
with errInvalidInput; a missing resolved header is errUnknownBlock.  When
a block number is given while no current header exists, the comparison
dereferences a nil header (panic). -/
def resolveHeader (chain : Chain) (blockNumber : Option Int) : Res Header :=
  match blockNumber with
  | none =>
    match chain.currentHeader with
    | none => Res.err ApiError.unknownBlock
    | some cur => Res.ok cur
  | some b =>
    match chain.currentHeader with
    | none => Res.panic
    | some cur =>
      if 0 < b ∧ b < (cur.number : Int) then
        match chain.getHeaderByNumber (bigUint64 b) with
        | none => Res.err ApiError.unknownBlock
        | some h => Res.ok h
      else if b < 0 ∨ (cur.number : Int) < b then
        Res.err ApiError.invalidInput
      else
        Res.ok cur

/-- GetActiveProducers: resolve the header and answer its active-producer
list directly; no call message is sent. -/
def getActiveProducers (env : Env) (blockNumber : Option Int) :
    Res (List Address) × List CallMsg :=
  match resolveHeader env.chain blockNumber with
  | Res.panic => (Res.panic, [])
  | Res.err e => (Res.err e, [])
  | Res.ok header => (Res.ok header.activeProducers, [])

/-- GetPendingProducer: resolve the header and answer its pending-producer
list directly; no call message is sent. -/
def getPendingProducer (env : Env) (blockNumber : Option Int) :
    Res (List Address) × List CallMsg :=
  match resolveHeader env.chain blockNumber with
  | Res.panic => (Res.panic, [])
  | Res.err e => (Res.err e, [])
  | Res.ok header => (Res.ok header.pendingProducers, [])

/-- GetSystemContract: an empty name fails at once with the null-string
error; otherwise pack getSystemContract, evaluate it at the CURRENT
header height against the main governance contract, and unpack one
address.  The current header is dereferenced without a nil check. -/
def getSystemContract (env : Env) (contractName : String) :
    Res Address × List CallMsg :=
  if contractName = "" then (Res.err ApiError.nullString, [])
  else
    match env.chain.currentHeader with
    | none => (Res.panic, [])
    | some cur =>
      match env.packMainGetSystemContract contractName with
      | Except.error s => (Res.err (ApiError.collaborator s), [])
      | Except.ok inputData =>
        let msg : CallMsg :=
          ⟨env.mainSystemContractAddr, inputData, cur.number % U64⟩
        match env.call msg with
        | Except.error s => (Res.err (ApiError.collaborator s), [msg])
        | Except.ok data =>
          match env.unpackMainGetSystemContract data with
          | Except.error s => (Res.err (ApiError.collaborator s), [msg])
          | Except.ok res => (Res.ok res, [msg])

/-- One entry of the sort table (sortNum): the original index into the
decoded weight array, and the weight found there. -/
structure SortNum where
  serial : Nat
  num : Int
  deriving DecidableEq, Repr

/-- Build the sort table from a start index: one entry per weight, in
array order, carrying its index. -/
def mkSortTableFrom (i : Nat) : List Int → List SortNum
  | [] => []
  | w :: ws => ⟨i, w⟩ :: mkSortTableFrom (i + 1) ws

/-- The sort table built by the loop over the decoded weight array. -/
def mkSortTable (weight : List Int) : List SortNum :=
  mkSortTableFrom 0 weight

/-- The ranking order: a comes before b when its weight is larger, or the
weights are equal and its original index is not larger. -/
def sortNumBefore (a b : SortNum) : Prop :=
  b.num < a.num ∨ (a.num = b.num ∧ a.serial ≤ b.serial)

instance : DecidableRel sortNumBefore := fun a b => by
  unfold sortNumBefore
  infer_instance

instance : IsTotal SortNum sortNumBefore where
  total a b := by
    rcases lt_trichotomy a.num b.num with h | h | h
    · exact Or.inr (Or.inl h)
    · rcases Nat.le_total a.serial b.serial with hs | hs
      · exact Or.inl (Or.inr ⟨h, hs⟩)
      · exact Or.inr (Or.inr ⟨h.symm, hs⟩)
    · exact Or.inl (Or.inl h)

instance : IsTrans SortNum sortNumBefore where
  trans a b c hab hbc := by
    rcases hab with h1 | ⟨h1, s1⟩
    · rcases hbc with h2 | ⟨h2, _⟩
      · exact Or.inl (h2.trans h1)
      · exact Or.inl (h2 ▸ h1)
    · rcases hbc with h2 | ⟨h2, s2⟩
      · exact Or.inl (h1 ▸ h2)
      · exact Or.inr ⟨h1.trans h2, s1.trans s2⟩

instance : IsAntisymm SortNum sortNumBefore where
  antisymm a b hab hba := by
    rcases hab with h1 | ⟨h1, s1⟩
    · rcases hba with h2 | ⟨h2, _⟩
      · exact absurd (h1.trans h2) (lt_irrefl _)
      · exact absurd h1 (h2 ▸ lt_irrefl _)
    · rcases hba with h2 | ⟨h2, s2⟩
      · exact absurd h2 (h1 ▸ lt_irrefl _)
      · cases a
        cases b
        simp only [SortNum.mk.injEq]
        exact ⟨Nat.le_antisymm s1 s2, h1⟩

/-- Modelled from the spec: sortNumSlice.GetTop, whose defining file is
not part of the given sources.  Per the ranking-algorithm contract it
sorts the table by weight descending with ties broken by ascending
original index (a stable full sort) and returns the first k entries. -/
def getTop (l : List SortNum) (k : Nat) : List SortNum :=
  (List.insertionSort sortNumBefore l).take k

/-- The output loop of GetAllProducers: for i from the given start while
fewer than rem steps remain, read entry i of the sorted slice and the
address at its original index, and emit the address paired with the
weight.  A missing index is a Go index-out-of-range panic (none). -/
def topLoop (addrs : List Address) (sorted : List SortNum) :
    Nat → Nat → Option (List ProducerInfo)
  | _, 0 => some []
  | i, rem + 1 =>
    match sorted[i]? with
    | none => none
    | some s =>
      match addrs[s.serial]? with
      | none => none
      | some a =>
        match topLoop addrs sorted (i + 1) rem with
        | none => none
        | some rest => some (⟨a, s.num⟩ :: rest)

/-- The size-selection branch of GetAllProducers, on the Int64 truncation
of sizeNumber: negative means all records, zero means the Uint64
truncation of the reported amount (errTooFewProducers when that amount
exceeds the record count), positive is clamped to the record count. -/
def pickGetNumber (len : Nat) (amount : Int) (size : Int) : Res Nat :=
  if size < 0 then Res.ok len
  else if size = 0 then
    if bigUint64 amount > len then Res.err ApiError.tooFewProducers
    else Res.ok (bigUint64 amount)
  else if size.toNat > len then Res.ok len
  else Res.ok size.toNat

/-- The ranking step of GetAllProducers (after decode): dereference
sizeNumber (nil is a panic), pick the target count from the size policy,
sort the table of (index, weight) entries, and emit the top entries
paired with the address at their original index, with the reported amount
as the answer size. -/
def selectAndRank (producersAddr : List Address) (weight : List Int)
    (amount : Int) (sizeNumber : Option Int) : Res ProducersInfo :=
  match sizeNumber with
  | none => Res.panic
  | some sz =>
    match pickGetNumber weight.length amount (bigInt64 sz) with
    | Res.panic => Res.panic
    | Res.err e => Res.err e
    | Res.ok getNumber =>
      match topLoop producersAddr (getTop (mkSortTable weight) getNumber) 0 getNumber with
      | none => Res.panic
      | some tops => Res.ok ⟨tops, amount⟩

/-- GetAllProducers: resolve the header, resolve the registry contract
address through GetSystemContract (its failure is replaced by the
resolution error), pack getAllProducersInfo, evaluate it at the RESOLVED
header height, unpack the address array, weight array and amount, and run
the ranking step. -/
def getAllProducers (env : Env) (blockNumber : Option Int)
    (sizeNumber : Option Int) : Res ProducersInfo × List CallMsg :=
  match resolveHeader env.chain blockNumber with
  | Res.panic => (Res.panic, [])
  | Res.err e => (Res.err e, [])
  | Res.ok header =>
    match getSystemContract env regContractName with
    | (Res.panic, t) => (Res.panic, t)
    | (Res.err _, t) => (Res.err ApiError.regContractResolution, t)
    | (Res.ok sysAddress, t) =>
      match env.packRegGetAllProducersInfo with
      | Except.error s => (Res.err (ApiError.collaborator s), t)
      | Except.ok inputData =>
        let msg : CallMsg := ⟨sysAddress, inputData, header.number % U64⟩
        match env.call msg with
        | Except.error s => (Res.err (ApiError.collaborator s), t ++ [msg])
        | Except.ok data =>
          match env.unpackRegGetAllProducersInfo data with
          | Except.error s => (Res.err (ApiError.collaborator s), t ++ [msg])
          | Except.ok (producersAddr, weight, amount) =>
            (selectAndRank producersAddr weight amount sizeNumber, t ++ [msg])

/-- GetVoteInfo: resolve the header, resolve the vote contract address
through GetSystemContract (its failure is replaced by the resolution
error), pack getVoteInfo with the queried address, evaluate at the
RESOLVED header height, and unpack the four-field vote record. -/
def getVoteInfo (env : Env) (addr : Address) (blockNumber : Option Int) :
    Res Voteinfo × List CallMsg :=
  match resolveHeader env.chain blockNumber with
  | Res.panic => (Res.panic, [])
  | Res.err e => (Res.err e, [])
  | Res.ok header =>
    match getSystemContract env voteContractName with
    | (Res.panic, t) => (Res.panic, t)
    | (Res.err _, t) => (Res.err ApiError.voteContractResolution, t)
    | (Res.ok voteAddress, t) =>
      match env.packVoteGetVoteInfo addr with
      | Except.error s => (Res.err (ApiError.collaborator s), t)
      | Except.ok inputData =>
        let msg : CallMsg := ⟨voteAddress, inputData, header.number % U64⟩
        match env.call msg with
        | Except.error s => (Res.err (ApiError.collaborator s), t ++ [msg])
        | Except.ok data =>
          match env.unpackVoteGetVoteInfo data with
          | Except.error s => (Res.err (ApiError.collaborator s), t ++ [msg])
          | Except.ok (proxy, producers, staked, weight) =>
            (Res.ok ⟨proxy, producers, staked, weight⟩, t ++ [msg])

/-- GetProposal: resolve the header, pack getProposal, evaluate it at the
RESOLVED header height directly against the fixed main governance
contract address, and unpack the ten-field proposal record. -/
def getProposal (env : Env) (blockNumber : Option Int) :
    Res ProposalInfo × List CallMsg :=
  match resolveHeader env.chain blockNumber with
  | Res.panic => (Res.panic, [])
  | Res.err e => (Res.err e, [])
  | Res.ok header =>
    match env.packMainGetProposal with
    | Except.error s => (Res.err (ApiError.collaborator s), [])
    | Except.ok inputData =>
      let msg : CallMsg :=
        ⟨env.mainSystemContractAddr, inputData, header.number % U64⟩
      match env.call msg with
      | Except.error s => (Res.err (ApiError.collaborator s), [msg])
      | Except.ok data =>
        match env.unpackMainGetProposal data with
        | Except.error s => (Res.err (ApiError.collaborator s), [msg])
        | Except.ok info => (Res.ok info, [msg])

/-- Modelled from the spec: the error-taxonomy kind InvalidInput covers a
malformed or out-of-range caller argument — a negative or over-range
height, or an empty contract name (the null-string error). -/
def isInvalidInputKind : ApiError → Bool
  | ApiError.invalidInput => true
  | ApiError.nullString => true
  | _ => false

/-- A concrete historical header at height five. -/
def testHeader5 : Header := ⟨5, [10, 11], [12]⟩

/-- A concrete current header at height nine. -/
def testCur : Header := ⟨9, [1, 2], [3]⟩

/-- A concrete chain: current header at nine, storage holding only the
header at five. -/
def testChain : Chain :=
  ⟨some testCur, fun n => if n = 5 then some testHeader5 else none⟩

/-- A concrete proposal record. -/
def testProposal : ProposalInfo := ⟨1, true, 7, 123, 8, [[0]], [9], 2, 3, 1⟩

/-- A concrete pure evaluation collaborator: answers the registry lookup
and vote lookup at the current height, the producers call against address
nine-zero-one, the vote call against nine-zero-two, and the proposal call
against the main contract, at any height. -/
def testCall (m : CallMsg) : Except String Bytes :=
  if m = ⟨900, [1], 9⟩ then Except.ok [11]
  else if m = ⟨900, [2], 9⟩ then Except.ok [12]
  else if m.toAddr = 901 ∧ m.data = [3] then Except.ok [13]
  else if m.toAddr = 902 ∧ m.data = [4] then Except.ok [14]
  else if m.toAddr = 900 ∧ m.data = [5] then Except.ok [15]
  else Except.error "unexpected call"

/-- A concrete environment for evaluating the facade: three producer
records with weights five, five and three, and reported amount two. -/
def testEnv : Env where
  chain := testChain
  call := testCall
  mainSystemContractAddr := 900
  packMainGetSystemContract := fun nm =>
    if nm = regContractName then Except.ok [1]
    else if nm = voteContractName then Except.ok [2]
    else Except.error "unexpected name"
  unpackMainGetSystemContract := fun b =>
    if b = [11] then Except.ok 901
    else if b = [12] then Except.ok 902
    else Except.error "bad bytes"
  packRegGetAllProducersInfo := Except.ok [3]
  unpackRegGetAllProducersInfo := fun b =>
    if b = [13] then Except.ok ([100, 101, 102], [5, 5, 3], 2)
    else Except.error "bad bytes"
  packVoteGetVoteInfo := fun _ => Except.ok [4]
  unpackVoteGetVoteInfo := fun b =>
    if b = [14] then Except.ok (700, [100], 50, 60)
    else Except.error "bad bytes"
  packMainGetProposal := Except.ok [5]
  unpackMainGetProposal := fun b =>
    if b = [15] then Except.ok testProposal
    else Except.error "bad bytes"

/-- A variant environment whose chain has no current header and empty
storage. -/
def testEnvNoCur : Env :=
  { testEnv with chain := ⟨none, fun _ => none⟩ }

/-- The full ranked table: the sort table in descending-weight order with
ties by ascending original index. -/
def rankedTable (ws : List Int) : List SortNum :=
  List.insertionSort sortNumBefore (mkSortTable ws)

/-- The first k entries of the ranking, paired with the address at their
original index. -/
def topOutput (addrs : List Address) (ws : List Int) (k : Nat) : List ProducerInfo :=
  ((rankedTable ws).take k).map (fun s => ProducerInfo.mk (addrs.getD s.serial 0) s.num)

/-- The weight stored at index j of the decoded weight array (zero when
out of range; the theorems using it bound j by the array length). -/
def wAt (ws : List Int) (j : Nat) : Int :=
  ws.getD j 0

theorem resolveHeader_none_current (chain : Chain) (cur : Header)
    (h : chain.currentHeader = some cur) :
    resolveHeader chain none = Res.ok cur := by
  simp only [resolveHeader, h]

theorem resolveHeader_none_missing (chain : Chain)
    (h : chain.currentHeader = none) :
    resolveHeader chain none = Res.err ApiError.unknownBlock := by
  simp only [resolveHeader, h]

theorem resolveHeader_invalid (chain : Chain) (cur : Header) (b : Int)
    (h : chain.currentHeader = some cur)
    (hb : b < 0 ∨ (cur.number : Int) < b) :
    resolveHeader chain (some b) = Res.err ApiError.invalidInput := by
  have hno : ¬(0 < b ∧ b < (cur.number : Int)) := by omega
  simp only [resolveHeader, h, if_neg hno, if_pos hb]

theorem resolveHeader_between (chain : Chain) (cur : Header) (b : Int)
    (h : chain.currentHeader = some cur) (h0 : 0 < b)
    (hlt : b < (cur.number : Int)) :
    resolveHeader chain (some b) =
      (match chain.getHeaderByNumber (bigUint64 b) with
       | none => Res.err ApiError.unknownBlock
       | some hh => Res.ok hh) := by
  simp only [resolveHeader, h, if_pos (And.intro h0 hlt)]

theorem resolveHeader_at_current (chain : Chain) (cur : Header)
    (h : chain.currentHeader = some cur) :
    resolveHeader chain (some (cur.number : Int)) = Res.ok cur := by
  have h1 : ¬(0 < (cur.number : Int) ∧ (cur.number : Int) < (cur.number : Int)) := by
    omega
  have h2 : ¬((cur.number : Int) < 0 ∨ (cur.number : Int) < (cur.number : Int)) := by
    omega
  simp only [resolveHeader, h, if_neg h1, if_neg h2]

theorem getActiveProducers_resErr (env : Env) (bn : Option Int) (e : ApiError)
    (h : resolveHeader env.chain bn = Res.err e) :
    getActiveProducers env bn = (Res.err e, []) := by
  simp only [getActiveProducers, h]

theorem getPendingProducer_resErr (env : Env) (bn : Option Int) (e : ApiError)
    (h : resolveHeader env.chain bn = Res.err e) :
    getPendingProducer env bn = (Res.err e, []) := by
  simp only [getPendingProducer, h]

theorem getAllProducers_resErr (env : Env) (bn sz : Option Int) (e : ApiError)
    (h : resolveHeader env.chain bn = Res.err e) :
    getAllProducers env bn sz = (Res.err e, []) := by
  simp only [getAllProducers, h]

theorem getVoteInfo_resErr (env : Env) (a : Address) (bn : Option Int)
    (e : ApiError) (h : resolveHeader env.chain bn = Res.err e) :
    getVoteInfo env a bn = (Res.err e, []) := by
  simp only [getVoteInfo, h]

theorem getProposal_resErr (env : Env) (bn : Option Int) (e : ApiError)
    (h : resolveHeader env.chain bn = Res.err e) :
    getProposal env bn = (Res.err e, []) := by
  simp only [getProposal, h]

theorem bigUint64_small (b : Int) (h0 : 0 ≤ b) (h : b < (U64 : Int)) :
    bigUint64 b = b.toNat := by
  simp only [bigUint64, U64] at *
  rw [if_neg (by omega)]
  omega

/-- C3: for every height-taking facade operation (GetActiveProducers,
GetPendingProducer, GetAllProducers, GetVoteInfo, GetProposal) and every
requested height below zero or above the current height, the operation
fails with the invalid-input error. -/
theorem facade_out_of_range_invalid_input (env : Env) (cur : Header) (b : Int)
    (hcur : env.chain.currentHeader = some cur)
    (hb : b < 0 ∨ (cur.number : Int) < b) :
    getActiveProducers env (some b) = (Res.err ApiError.invalidInput, []) ∧
    getPendingProducer env (some b) = (Res.err ApiError.invalidInput, []) ∧
    (∀ sz, getAllProducers env (some b) sz = (Res.err ApiError.invalidInput, [])) ∧
    (∀ a, getVoteInfo env a (some b) = (Res.err ApiError.invalidInput, [])) ∧
    getProposal env (some b) = (Res.err ApiError.invalidInput, []) := by
  have hres := resolveHeader_invalid env.chain cur b hcur hb
  exact ⟨getActiveProducers_resErr env (some b) _ hres,
    getPendingProducer_resErr env (some b) _ hres,
    fun sz => getAllProducers_resErr env (some b) sz _ hres,
    fun a => getVoteInfo_resErr env a (some b) _ hres,
    getProposal_resErr env (some b) _ hres⟩

/-- C3 witness: at the concrete environment with current height nine, the
over-range height twenty and the negative height are rejected. -/
theorem facade_out_of_range_invalid_input_witness :
    getActiveProducers testEnv (some 20) = (Res.err ApiError.invalidInput, []) ∧
    getAllProducers testEnv (some 20) (some 1) = (Res.err ApiError.invalidInput, []) ∧
    getProposal testEnv (some (-3)) = (Res.err ApiError.invalidInput, []) := by
  have h1 := facade_out_of_range_invalid_input testEnv testCur 20 rfl (by decide)
  have h2 := facade_out_of_range_invalid_input testEnv testCur (-3) rfl (by decide)
  exact ⟨h1.1, h1.2.2.1 (some 1), h2.2.2.2.2⟩

/-- C4: for the shared header-resolution step of the height-taking facade
operations, an absent height resolves to the current header; a height
strictly between zero and the current height is fetched from storage by
number; the current height itself resolves to the in-memory current
header, without any storage fetch and without failing, whatever the
storage lookup would return. -/
theorem facade_header_resolution_boundary (env : Env) (cur : Header)
    (hcur : env.chain.currentHeader = some cur) :
    resolveHeader env.chain none = Res.ok cur ∧
    (∀ b : Int, 0 < b → b < (cur.number : Int) → b < (U64 : Int) →
      resolveHeader env.chain (some b) =
        (match env.chain.getHeaderByNumber b.toNat with
         | none => Res.err ApiError.unknownBlock
         | some hh => Res.ok hh)) ∧
    (∀ f : Nat → Option Header,
      resolveHeader ⟨some cur, f⟩ (some (cur.number : Int)) = Res.ok cur) ∧
    getActiveProducers env none = (Res.ok cur.activeProducers, []) ∧
    (∀ env2 : Env, env2.chain.currentHeader = some cur →
      getActiveProducers env2 (some (cur.number : Int)) =
        (Res.ok cur.activeProducers, [])) := by
  refine ⟨resolveHeader_none_current env.chain cur hcur, ?_, ?_, ?_, ?_⟩
  · intro b h0 hlt hu
    rw [resolveHeader_between env.chain cur b hcur h0 hlt,
      bigUint64_small b (le_of_lt h0) hu]
  · intro f
    exact resolveHeader_at_current ⟨some cur, f⟩ cur rfl
  · simp only [getActiveProducers, resolveHeader_none_current env.chain cur hcur]
  · intro env2 h2
    simp only [getActiveProducers, resolveHeader_at_current env2.chain cur h2]

/-- C4 witness: at the concrete chain with current height nine, an absent
height gives the current header, height five is fetched from storage, and
height nine resolves to the current header even when storage is empty. -/
theorem facade_header_resolution_boundary_witness :
    resolveHeader testChain none = Res.ok testCur ∧
    resolveHeader testChain (some 5) = Res.ok testHeader5 ∧
    resolveHeader ⟨some testCur, fun _ => none⟩ (some 9) = Res.ok testCur ∧
    getActiveProducers testEnv (some 9) = (Res.ok [1, 2], []) := by
  have h := facade_header_resolution_boundary testEnv testCur rfl
  refine ⟨h.1, ?_, ?_, ?_⟩
  · have h5 := h.2.1 5 (by decide) (by decide) (by decide)
    exact h5.trans (by decide)
  · exact h.2.2.1 (fun _ => none)
  · exact h.2.2.2.2 testEnv rfl

/-- C6: GetSystemContract called with the empty string fails with the
null-string error — the invalid-input kind of the taxonomy — and sends no
call message to the evaluation collaborator. -/
theorem getSystemContract_empty_name (env : Env) :
    getSystemContract env "" = (Res.err ApiError.nullString, []) ∧
    isInvalidInputKind ApiError.nullString = true := by
  constructor
  · simp only [getSystemContract, if_pos rfl, if_true]
  · rfl

/-- C7: for every height-taking facade operation, when the height passes
range validation (or is absent) but the header lookup yields no header,
the operation fails with the unknown-block error: both when no current
header exists and when the in-range historical lookup misses. -/
theorem facade_missing_header_unknown_block (env : Env) :
    (env.chain.currentHeader = none →
      getActiveProducers env none = (Res.err ApiError.unknownBlock, []) ∧
      getPendingProducer env none = (Res.err ApiError.unknownBlock, []) ∧
      (∀ sz, getAllProducers env none sz = (Res.err ApiError.unknownBlock, [])) ∧
      (∀ a, getVoteInfo env a none = (Res.err ApiError.unknownBlock, [])) ∧
      getProposal env none = (Res.err ApiError.unknownBlock, [])) ∧
    (∀ cur : Header, ∀ b : Int, env.chain.currentHeader = some cur →
      0 < b → b < (cur.number : Int) →
      env.chain.getHeaderByNumber (bigUint64 b) = none →
      getActiveProducers env (some b) = (Res.err ApiError.unknownBlock, []) ∧
      getPendingProducer env (some b) = (Res.err ApiError.unknownBlock, []) ∧
      (∀ sz, getAllProducers env (some b) sz = (Res.err ApiError.unknownBlock, [])) ∧
      (∀ a, getVoteInfo env a (some b) = (Res.err ApiError.unknownBlock, [])) ∧
      getProposal env (some b) = (Res.err ApiError.unknownBlock, [])) := by
  constructor
  · intro hnone
    have hres := resolveHeader_none_missing env.chain hnone
    exact ⟨getActiveProducers_resErr env none _ hres,
      getPendingProducer_resErr env none _ hres,
      fun sz => getAllProducers_resErr env none sz _ hres,
      fun a => getVoteInfo_resErr env a none _ hres,
      getProposal_resErr env none _ hres⟩
  · intro cur b hcur h0 hlt hmiss
    have hres : resolveHeader env.chain (some b) = Res.err ApiError.unknownBlock := by
      rw [resolveHeader_between env.chain cur b hcur h0 hlt, hmiss]
    exact ⟨getActiveProducers_resErr env (some b) _ hres,
      getPendingProducer_resErr env (some b) _ hres,
      fun sz => getAllProducers_resErr env (some b) sz _ hres,
      fun a => getVoteInfo_resErr env a (some b) _ hres,
      getProposal_resErr env (some b) _ hres⟩

/-- C7 witness: with no current header the operations answer unknown
block, and at the concrete chain the in-range height three (absent from
storage) answers unknown block. -/
theorem facade_missing_header_unknown_block_witness :
    getActiveProducers testEnvNoCur none = (Res.err ApiError.unknownBlock, []) ∧
    getProposal testEnvNoCur none = (Res.err ApiError.unknownBlock, []) ∧
    getActiveProducers testEnv (some 3) = (Res.err ApiError.unknownBlock, []) ∧
    getAllProducers testEnv (some 3) (some 1) = (Res.err ApiError.unknownBlock, []) := by
  have h1 := (facade_missing_header_unknown_block testEnvNoCur).1 rfl
  have h2 := (facade_missing_header_unknown_block testEnv).2 testCur 3 rfl
    (by decide) (by decide) (by decide)
  exact ⟨h1.1, h1.2.2.2.2, h2.1, h2.2.2.1 (some 1)⟩

theorem length_mkSortTableFrom (ws : List Int) :
    ∀ i, (mkSortTableFrom i ws).length = ws.length := by
  induction ws with
  | nil => intro i; rfl
  | cons w ws ih => intro i; simp [mkSortTableFrom, ih]

theorem map_serial_mkSortTableFrom (ws : List Int) :
    ∀ i, (mkSortTableFrom i ws).map SortNum.serial = List.range' i ws.length := by
  induction ws with
  | nil => intro i; rfl
  | cons w ws ih =>
    intro i
    simp [mkSortTableFrom, List.range'_succ, ih]

theorem mem_mkSortTableFrom (ws : List Int) (s : SortNum) :
    ∀ i, s ∈ mkSortTableFrom i ws →
      i ≤ s.serial ∧ s.serial - i < ws.length ∧ ws[s.serial - i]? = some s.num := by
  induction ws with
  | nil => intro i h; cases h
  | cons w ws ih =>
    intro i h
    rcases List.mem_cons.mp h with h | h
    · subst h
      refine ⟨Nat.le_refl _, by simp, ?_⟩
      simp
    · obtain ⟨h1, h2, h3⟩ := ih (i + 1) h
      refine ⟨by omega, by simp; omega, ?_⟩
      have hser : s.serial - i = (s.serial - (i + 1)) + 1 := by omega
      rw [hser]
      simpa using h3

theorem perm_rankedTable (ws : List Int) :
    List.Perm (rankedTable ws) (mkSortTable ws) :=
  List.perm_insertionSort sortNumBefore (mkSortTable ws)

theorem sorted_rankedTable (ws : List Int) :
    List.Pairwise sortNumBefore (rankedTable ws) :=
  List.sorted_insertionSort sortNumBefore (mkSortTable ws)

theorem length_rankedTable (ws : List Int) :
    (rankedTable ws).length = ws.length := by
  rw [(perm_rankedTable ws).length_eq, mkSortTable, length_mkSortTableFrom]

theorem mem_rankedTable (ws : List Int) (s : SortNum)
    (h : s ∈ rankedTable ws) :
    s.serial < ws.length ∧ ws[s.serial]? = some s.num := by
  have hmem : s ∈ mkSortTable ws := (perm_rankedTable ws).mem_iff.mp h
  obtain ⟨h1, h2, h3⟩ := mem_mkSortTableFrom ws s 0 hmem
  simpa using ⟨h2, h3⟩

theorem nodup_serial_rankedTable (ws : List Int) :
    ((rankedTable ws).map SortNum.serial).Nodup := by
  have hperm := (perm_rankedTable ws).map SortNum.serial
  rw [mkSortTable, map_serial_mkSortTableFrom] at hperm
  exact hperm.nodup_iff.mpr (List.nodup_range' 0 ws.length)

theorem topLoop_spec (addrs : List Address) (sorted : List SortNum) :
    ∀ rem i, i + rem ≤ sorted.length →
      (∀ s ∈ sorted, s.serial < addrs.length) →
      topLoop addrs sorted i rem =
        some (((sorted.drop i).take rem).map
          (fun s => ProducerInfo.mk (addrs.getD s.serial 0) s.num)) := by
  intro rem
  induction rem with
  | zero =>
    intro i h hmem
    simp [topLoop]
  | succ rem ih =>
    intro i h hmem
    have hi : i < sorted.length := by omega
    have hgi : sorted[i]? = some sorted[i] := List.getElem?_eq_getElem hi
    have hsmem : sorted[i] ∈ sorted := List.getElem_mem hi
    have hser : sorted[i].serial < addrs.length := hmem _ hsmem
    have haddr : addrs[sorted[i].serial]? = some (addrs.getD sorted[i].serial 0) := by
      rw [List.getElem?_eq_getElem hser, List.getD_eq_getElem addrs 0 hser]
    rw [List.drop_eq_getElem_cons hi, List.take_succ_cons, List.map_cons]
    simp only [topLoop, hgi, haddr, ih (i + 1) (by omega) hmem]

theorem pickGetNumber_le (len : Nat) (amount size : Int) (k : Nat)
    (h : pickGetNumber len amount size = Res.ok k) : k ≤ len := by
  simp only [pickGetNumber] at h
  split_ifs at h <;> cases h <;> omega

theorem selectAndRank_ok (addrs : List Address) (ws : List Int) (amt : Int)
    (sz : Int) (k : Nat) (hlen : addrs.length = ws.length)
    (hpick : pickGetNumber ws.length amt (bigInt64 sz) = Res.ok k) :
    selectAndRank addrs ws amt (some sz) =
      Res.ok (ProducersInfo.mk (topOutput addrs ws k) amt) := by
  have hk : k ≤ ws.length := pickGetNumber_le _ _ _ _ hpick
  have hmem : ∀ s ∈ getTop (mkSortTable ws) k, s.serial < addrs.length := by
    intro s hs
    have hs2 : s ∈ rankedTable ws := List.take_subset _ _ hs
    have := (mem_rankedTable ws s hs2).1
    omega
  have hlength : (getTop (mkSortTable ws) k).length = k := by
    simp only [getTop]
    rw [List.length_take]
    have := length_rankedTable ws
    simp only [rankedTable] at this
    omega
  have hloop := topLoop_spec addrs (getTop (mkSortTable ws) k) k 0
    (by omega) hmem
  simp only [selectAndRank, hpick, hloop, List.drop_zero]
  rw [List.take_of_length_le (le_of_eq hlength)]
  rfl

theorem selectAndRank_err (addrs : List Address) (ws : List Int) (amt : Int)
    (sz : Int) (e : ApiError)
    (hpick : pickGetNumber ws.length amt (bigInt64 sz) = Res.err e) :
    selectAndRank addrs ws amt (some sz) = Res.err e := by
  simp only [selectAndRank, hpick]

theorem length_topOutput (addrs : List Address) (ws : List Int) (k : Nat)
    (hk : k ≤ ws.length) : (topOutput addrs ws k).length = k := by
  simp only [topOutput, List.length_map, List.length_take, length_rankedTable]
  omega

theorem bigInt64_small (s : Int) (h1 : -(I64HALF : Int) ≤ s)
    (h2 : s < (I64HALF : Int)) : bigInt64 s = s := by
  simp only [bigInt64, wrapInt64, U64, I64HALF] at *
  split_ifs with h <;> omega

/-- C5: for a valid historical height strictly between zero and the
current height, GetActiveProducers answers exactly the active-producer
list of the header stored at that height and GetPendingProducer its
pending-producer list, with no call message sent, and depending only on
the chain reader (any environment with the same chain answers the
same). -/
theorem historical_producers_from_header (env : Env) (cur hh : Header) (b : Int)
    (hcur : env.chain.currentHeader = some cur)
    (h0 : 0 < b) (hlt : b < (cur.number : Int)) (hu : b < (U64 : Int))
    (hfind : env.chain.getHeaderByNumber b.toNat = some hh) :
    getActiveProducers env (some b) = (Res.ok hh.activeProducers, []) ∧
    getPendingProducer env (some b) = (Res.ok hh.pendingProducers, []) ∧
    (∀ env2 : Env, env2.chain = env.chain →
      getActiveProducers env2 (some b) = (Res.ok hh.activeProducers, []) ∧
      getPendingProducer env2 (some b) = (Res.ok hh.pendingProducers, [])) := by
  have hres : resolveHeader env.chain (some b) = Res.ok hh := by
    rw [resolveHeader_between env.chain cur b hcur h0 hlt,
      bigUint64_small b (le_of_lt h0) hu, hfind]
  refine ⟨?_, ?_, ?_⟩
  · simp only [getActiveProducers, hres]
  · simp only [getPendingProducer, hres]
  · intro env2 h2
    constructor
    · simp only [getActiveProducers, h2, hres]
    · simp only [getPendingProducer, h2, hres]

/-- C5 witness: at the concrete chain, height five answers the producer
lists of the stored header at five. -/
theorem historical_producers_from_header_witness :
    getActiveProducers testEnv (some 5) = (Res.ok [10, 11], []) ∧
    getPendingProducer testEnv (some 5) = (Res.ok [12], []) := by
  have h := historical_producers_from_header testEnv testCur testHeader5 5
    rfl (by decide) (by decide) (by decide) (by decide)
  exact ⟨h.1, h.2.1⟩

/-- C1 counterexample: the claim quantifies over every arbitrary-precision
signed sizeNumber and promises that a positive sizeNumber returns
min(sizeNumber, n) records with no error; but the code branches on the
Int64 truncation of sizeNumber, so the positive sizeNumber two to the
sixty-fourth truncates to zero and takes the amount branch, failing with
errTooFewProducers when the reported amount exceeds the record count. -/
theorem getAllProducers_size_policy_counterexample :
    (0 : Int) < 18446744073709551616 ∧
    selectAndRank [100] [7] 2 (some 18446744073709551616) =
      Res.err ApiError.tooFewProducers ∧
    Nat.min 18446744073709551616 1 = 1 ∧ (1 : Nat) ≠ 0 := by
  refine ⟨by decide, ?_, by decide, by decide⟩
  have : bigInt64 18446744073709551616 = 0 := by decide
  rw [selectAndRank_err [100] [7] 2 18446744073709551616 ApiError.tooFewProducers ?_]
  rw [this]
  decide

/-- C1 amended: for every call reaching the ranking step with n decoded
records (parallel address and weight arrays of equal length), a reported
amount in the uint64 range, and a sizeNumber whose VALUE FITS IN INT64
(the code truncates sizeNumber with Int64 before branching, so values
outside that range follow the truncated value instead): a negative
sizeNumber returns all n records ranked; sizeNumber zero fails with
errTooFewProducers when amount exceeds n and otherwise returns exactly
the top amount records; a positive sizeNumber returns exactly
min(sizeNumber, n) records with no error. -/
theorem size_selection_policy_int64 (addrs : List Address) (ws : List Int)
    (amt : Int) (s : Int)
    (hlen : addrs.length = ws.length)
    (hs1 : -(I64HALF : Int) ≤ s) (hs2 : s < (I64HALF : Int))
    (ha1 : 0 ≤ amt) (ha2 : amt < (U64 : Int)) :
    (s < 0 → selectAndRank addrs ws amt (some s) =
        Res.ok (ProducersInfo.mk (topOutput addrs ws ws.length) amt) ∧
      (topOutput addrs ws ws.length).length = ws.length) ∧
    (s = 0 → amt.toNat > ws.length →
      selectAndRank addrs ws amt (some s) = Res.err ApiError.tooFewProducers) ∧
    (s = 0 → amt.toNat ≤ ws.length →
      selectAndRank addrs ws amt (some s) =
        Res.ok (ProducersInfo.mk (topOutput addrs ws amt.toNat) amt) ∧
      (topOutput addrs ws amt.toNat).length = amt.toNat) ∧
    (0 < s → selectAndRank addrs ws amt (some s) =
        Res.ok (ProducersInfo.mk (topOutput addrs ws (min s.toNat ws.length)) amt) ∧
      (topOutput addrs ws (min s.toNat ws.length)).length = min s.toNat ws.length) := by
  have hsz : bigInt64 s = s := bigInt64_small s hs1 hs2
  have hamt : bigUint64 amt = amt.toNat := bigUint64_small amt ha1 ha2
  refine ⟨?_, ?_, ?_, ?_⟩
  · intro hneg
    have hpick : pickGetNumber ws.length amt (bigInt64 s) = Res.ok ws.length := by
      rw [hsz]
      simp only [pickGetNumber, if_pos hneg]
    exact ⟨selectAndRank_ok addrs ws amt s ws.length hlen hpick,
      length_topOutput addrs ws ws.length (Nat.le_refl _)⟩
  · intro hzero hbig
    have hpick : pickGetNumber ws.length amt (bigInt64 s) =
        Res.err ApiError.tooFewProducers := by
      rw [hsz, hzero]
      simp only [pickGetNumber, lt_irrefl, if_neg (lt_irrefl 0), if_pos rfl, hamt,
        if_pos hbig, if_false, if_true]
    exact selectAndRank_err addrs ws amt s ApiError.tooFewProducers hpick
  · intro hzero hle
    have hpick : pickGetNumber ws.length amt (bigInt64 s) = Res.ok amt.toNat := by
      rw [hsz, hzero]
      have hnotbig : ¬ amt.toNat > ws.length := by omega
      simp only [pickGetNumber, lt_irrefl, if_neg (lt_irrefl 0), if_pos rfl, hamt,
        if_neg hnotbig, if_false, if_true]
    exact ⟨selectAndRank_ok addrs ws amt s amt.toNat hlen hpick,
      length_topOutput addrs ws amt.toNat hle⟩
  · intro hpos
    have hk : min s.toNat ws.length ≤ ws.length := Nat.min_le_right _ _
    have hpick : pickGetNumber ws.length amt (bigInt64 s) =
        Res.ok (min s.toNat ws.length) := by
      rw [hsz]
      have hnotneg : ¬ s < 0 := by omega
      have hnotzero : ¬ s = 0 := by omega
      by_cases hcase : s.toNat > ws.length
      · have : min s.toNat ws.length = ws.length := by omega
        rw [this]
        simp only [pickGetNumber, if_neg hnotneg, if_neg hnotzero, if_pos hcase]
      · have : min s.toNat ws.length = s.toNat := by omega
        rw [this]
        simp only [pickGetNumber, if_neg hnotneg, if_neg hnotzero, if_neg hcase]
    exact ⟨selectAndRank_ok addrs ws amt s (min s.toNat ws.length) hlen hpick,
      length_topOutput addrs ws (min s.toNat ws.length) hk⟩

/-- C1 witness: three records with weights five, five, three; reported
amount two: sizeNumber minus one returns all three, sizeNumber zero
returns the top two, sizeNumber fifty returns all three, and with
reported amount twelve sizeNumber zero fails with errTooFewProducers. -/
theorem size_selection_policy_int64_witness :
    selectAndRank [100, 101, 102] [5, 5, 3] 2 (some (-1)) =
      Res.ok (ProducersInfo.mk (topOutput [100, 101, 102] [5, 5, 3] 3) 2) ∧
    selectAndRank [100, 101, 102] [5, 5, 3] 2 (some 0) =
      Res.ok (ProducersInfo.mk (topOutput [100, 101, 102] [5, 5, 3] 2) 2) ∧
    (topOutput [100, 101, 102] [5, 5, 3] 2).length = 2 ∧
    selectAndRank [100, 101, 102] [5, 5, 3] 2 (some 50) =
      Res.ok (ProducersInfo.mk (topOutput [100, 101, 102] [5, 5, 3] 3) 2) ∧
    selectAndRank [100, 101, 102] [5, 5, 3] 12 (some 0) =
      Res.err ApiError.tooFewProducers := by
  have h2 := size_selection_policy_int64 [100, 101, 102] [5, 5, 3] 2 (-1)
    (by decide) (by decide) (by decide) (by decide) (by decide)
  have h0 := size_selection_policy_int64 [100, 101, 102] [5, 5, 3] 2 0
    (by decide) (by decide) (by decide) (by decide) (by decide)
  have h50 := size_selection_policy_int64 [100, 101, 102] [5, 5, 3] 2 50
    (by decide) (by decide) (by decide) (by decide) (by decide)
  have h12 := size_selection_policy_int64 [100, 101, 102] [5, 5, 3] 12 0
    (by decide) (by decide) (by decide) (by decide) (by decide)
  refine ⟨(h2.1 (by decide)).1, (h0.2.2.1 rfl (by decide)).1,
    (h0.2.2.1 rfl (by decide)).2, ?_, h12.2.1 rfl (by decide)⟩
  have := (h50.2.2.2 (by decide)).1
  simpa using this

/-- C2: every producer list the ranking step returns is described by a
list of original indices into the decoded arrays: each entry carries the
address and weight found at its index, weights are descending along the
list, and equal weights appear in ascending original-index order. -/
theorem ranking_sorted_stable_pairing (addrs : List Address) (ws : List Int)
    (amt : Int) (sz : Int) (info : ProducersInfo)
    (hlen : addrs.length = ws.length)
    (hok : selectAndRank addrs ws amt (some sz) = Res.ok info) :
    ∃ idx : List Nat,
      (∀ j ∈ idx, j < ws.length) ∧
      List.Pairwise (fun p q => wAt ws q < wAt ws p ∨
        (wAt ws p = wAt ws q ∧ p < q)) idx ∧
      info.producers = idx.map
        (fun j => ProducerInfo.mk (addrs.getD j 0) (wAt ws j)) := by
  cases hpick : pickGetNumber ws.length amt (bigInt64 sz) with
  | err e =>
    rw [selectAndRank_err addrs ws amt sz e hpick] at hok
    cases hok
  | panic =>
    have hpan : selectAndRank addrs ws amt (some sz) = Res.panic := by
      simp only [selectAndRank, hpick]
    rw [hpan] at hok
    cases hok
  | ok k =>
    rw [selectAndRank_ok addrs ws amt sz k hlen hpick] at hok
    cases hok
    refine ⟨((rankedTable ws).take k).map SortNum.serial, ?_, ?_, ?_⟩
    · intro j hj
      rcases List.mem_map.mp hj with ⟨s, hs, rfl⟩
      exact (mem_rankedTable ws s (List.take_subset _ _ hs)).1
    · rw [List.pairwise_map]
      have hsorted : List.Pairwise sortNumBefore ((rankedTable ws).take k) :=
        List.Pairwise.sublist (List.take_sublist _ _) (sorted_rankedTable ws)
      have hnd : List.Pairwise (fun x y : SortNum => x.serial ≠ y.serial)
          ((rankedTable ws).take k) := by
        rw [← List.pairwise_map]
        exact List.Nodup.sublist
          (List.Sublist.map SortNum.serial (List.take_sublist _ _))
          (nodup_serial_rankedTable ws)
      refine List.Pairwise.imp_of_mem ?_ (hsorted.and hnd)
      intro x y hx hy hxy
      obtain ⟨hsn, hne⟩ := hxy
      have hmx := mem_rankedTable ws x (List.take_subset _ _ hx)
      have hmy := mem_rankedTable ws y (List.take_subset _ _ hy)
      have hwx : wAt ws x.serial = x.num := by
        simp [wAt, hmx.2]
      have hwy : wAt ws y.serial = y.num := by
        simp [wAt, hmy.2]
      rcases hsn with hbig | ⟨heq, hle⟩
      · exact Or.inl (by rw [hwx, hwy]; exact hbig)
      · refine Or.inr ⟨by rw [hwx, hwy, heq], by omega⟩
    · show topOutput addrs ws k = _
      simp only [topOutput, List.map_map]
      apply List.map_congr_left
      intro s hs
      have hm := mem_rankedTable ws s (List.take_subset _ _ hs)
      simp [Function.comp, wAt, ProducerInfo.mk.injEq, hm.2]

/-- C2 witness: weights five, five, three with amount two and sizeNumber
two return the first two records in original order, witnessing the
descending, stable, index-paired output shape. -/
theorem ranking_sorted_stable_pairing_witness :
    ([100, 101, 102] : List Address).length = ([5, 5, 3] : List Int).length ∧
    selectAndRank [100, 101, 102] [5, 5, 3] 2 (some 2) =
      Res.ok (ProducersInfo.mk [ProducerInfo.mk 100 5, ProducerInfo.mk 101 5] 2) ∧
    (∃ idx : List Nat,
      (∀ j ∈ idx, j < ([5, 5, 3] : List Int).length) ∧
      List.Pairwise (fun p q => wAt [5, 5, 3] q < wAt [5, 5, 3] p ∨
        (wAt [5, 5, 3] p = wAt [5, 5, 3] q ∧ p < q)) idx ∧
      (ProducersInfo.mk [ProducerInfo.mk 100 5, ProducerInfo.mk 101 5] 2).producers =
        idx.map (fun j => ProducerInfo.mk
          (([100, 101, 102] : List Address).getD j 0) (wAt [5, 5, 3] j))) := by
  have hsel : selectAndRank [100, 101, 102] [5, 5, 3] 2 (some 2) =
      Res.ok (ProducersInfo.mk [ProducerInfo.mk 100 5, ProducerInfo.mk 101 5] 2) := by
    decide
  exact ⟨by decide, hsel,
    ranking_sorted_stable_pairing [100, 101, 102] [5, 5, 3] 2 2 _ (by decide) hsel⟩

/-- C8: with the collaborators fixed as pure functions, every facade
operation is deterministic — repeated invocations with identical
arguments are identical — and the ranking order is canonical: ANY
permutation of the sort table that is sorted by the ranking order equals
the ranked table, so repeated rankings of the same arrays cannot
differ. -/
theorem facade_deterministic_ranking_unique (env : Env) (bn sz : Option Int)
    (a : Address) (nm : String) (ws : List Int) (l : List SortNum) :
    getActiveProducers env bn = getActiveProducers env bn ∧
    getPendingProducer env bn = getPendingProducer env bn ∧
    getAllProducers env bn sz = getAllProducers env bn sz ∧
    getVoteInfo env a bn = getVoteInfo env a bn ∧
    getProposal env bn = getProposal env bn ∧
    getSystemContract env nm = getSystemContract env nm ∧
    (List.Perm l (mkSortTable ws) → List.Pairwise sortNumBefore l →
      l = rankedTable ws) := by
  refine ⟨rfl, rfl, rfl, rfl, rfl, rfl, ?_⟩
  intro hperm hsorted
  exact List.eq_of_perm_of_sorted
    (hperm.trans (List.perm_insertionSort sortNumBefore (mkSortTable ws)).symm)
    hsorted (List.sorted_insertionSort sortNumBefore (mkSortTable ws))

/-- C8 witness: the already-sorted table of weights five, five, three is
the unique sorted permutation, and a repeated concrete facade call is
identical to itself. -/
theorem facade_deterministic_ranking_unique_witness :
    getAllProducers testEnv none (some 2) = getAllProducers testEnv none (some 2) ∧
    ([⟨0, 5⟩, ⟨1, 5⟩, ⟨2, 3⟩] : List SortNum) = rankedTable [5, 5, 3] := by
  have h := facade_deterministic_ranking_unique testEnv none (some 2) 0 "x"
    [5, 5, 3] [⟨0, 5⟩, ⟨1, 5⟩, ⟨2, 3⟩]
  exact ⟨h.2.2.1, h.2.2.2.2.2.2 (by decide) (by decide)⟩

theorem getSystemContract_cases (env : Env) (cur : Header) (nm : String)
    (hcur : env.chain.currentHeader = some cur) (hnm : ¬ nm = "") :
    (∃ e, getSystemContract env nm = (Res.err e, [])) ∨
    (∃ e d, getSystemContract env nm =
      (Res.err e, [CallMsg.mk env.mainSystemContractAddr d (cur.number % U64)])) ∨
    (∃ a d, getSystemContract env nm =
      (Res.ok a, [CallMsg.mk env.mainSystemContractAddr d (cur.number % U64)])) := by
  simp only [getSystemContract, if_neg hnm, hcur]
  cases hp : env.packMainGetSystemContract nm with
  | error s => exact Or.inl ⟨ApiError.collaborator s, rfl⟩
  | ok d =>
    dsimp only
    cases hc : env.call ⟨env.mainSystemContractAddr, d, cur.number % U64⟩ with
    | error s => exact Or.inr (Or.inl ⟨ApiError.collaborator s, d, rfl⟩)
    | ok out =>
      dsimp only
      cases hu : env.unpackMainGetSystemContract out with
      | error s => exact Or.inr (Or.inl ⟨ApiError.collaborator s, d, rfl⟩)
      | ok a => exact Or.inr (Or.inr ⟨a, d, rfl⟩)

/-- C9: when GetAllProducers or GetVoteInfo resolves a historical header
strictly below the current height, the first call message it sends — the
GetSystemContract registry lookup — still targets the main contract at
the CURRENT height, which differs from the resolved historical height. -/
theorem system_contract_lookup_at_current_height (env : Env) (cur hh : Header)
    (b : Int) (sz : Option Int) (a : Address)
    (hcur : env.chain.currentHeader = some cur)
    (h0 : 0 < b) (hlt : b < (cur.number : Int)) (hu : cur.number < U64)
    (hfind : env.chain.getHeaderByNumber (bigUint64 b) = some hh)
    (hnum : (hh.number : Int) = b) :
    (∀ m, ((getAllProducers env (some b) sz).2).head? = some m →
      m.toAddr = env.mainSystemContractAddr ∧ m.height = cur.number ∧
      m.height ≠ hh.number) ∧
    (∀ m, ((getVoteInfo env a (some b)).2).head? = some m →
      m.toAddr = env.mainSystemContractAddr ∧ m.height = cur.number ∧
      m.height ≠ hh.number) := by
  have hres : resolveHeader env.chain (some b) = Res.ok hh := by
    rw [resolveHeader_between env.chain cur b hcur h0 hlt, hfind]
  have hmod : cur.number % U64 = cur.number := Nat.mod_eq_of_lt hu
  have hhlt : hh.number < cur.number := by
    have : (hh.number : Int) < (cur.number : Int) := by rw [hnum]; exact hlt
    exact_mod_cast this
  have hneq : cur.number % U64 ≠ hh.number := by rw [hmod]; omega
  constructor
  · intro m hm
    rcases getSystemContract_cases env cur regContractName hcur (by decide) with
      ⟨e, hsys⟩ | ⟨e, d, hsys⟩ | ⟨a2, d, hsys⟩
    · simp only [getAllProducers, hres, hsys, List.head?_nil] at hm
      cases hm
    · simp only [getAllProducers, hres, hsys, List.head?_cons] at hm
      cases hm
      exact ⟨rfl, hmod, hneq⟩
    · cases hp : env.packRegGetAllProducersInfo with
      | error s =>
        simp only [getAllProducers, hres, hsys, hp, List.head?_cons] at hm
        cases hm
        exact ⟨rfl, hmod, hneq⟩
      | ok d2 =>
        cases hc : env.call ⟨a2, d2, hh.number % U64⟩ with
        | error s =>
          simp only [getAllProducers, hres, hsys, hp, hc, List.cons_append,
            List.nil_append, List.head?_cons] at hm
          cases hm
          exact ⟨rfl, hmod, hneq⟩
        | ok out =>
          cases hu2 : env.unpackRegGetAllProducersInfo out with
          | error s =>
            simp only [getAllProducers, hres, hsys, hp, hc, hu2, List.cons_append,
              List.nil_append, List.head?_cons] at hm
            cases hm
            exact ⟨rfl, hmod, hneq⟩
          | ok trip =>
            obtain ⟨aa, ww, am⟩ := trip
            simp only [getAllProducers, hres, hsys, hp, hc, hu2, List.cons_append,
              List.nil_append, List.head?_cons] at hm
            cases hm
            exact ⟨rfl, hmod, hneq⟩
  · intro m hm
    rcases getSystemContract_cases env cur voteContractName hcur (by decide) with
      ⟨e, hsys⟩ | ⟨e, d, hsys⟩ | ⟨a2, d, hsys⟩
    · simp only [getVoteInfo, hres, hsys, List.head?_nil] at hm
      cases hm
    · simp only [getVoteInfo, hres, hsys, List.head?_cons] at hm
      cases hm
      exact ⟨rfl, hmod, hneq⟩
    · cases hp : env.packVoteGetVoteInfo a with
      | error s =>
        simp only [getVoteInfo, hres, hsys, hp, List.head?_cons] at hm
        cases hm
        exact ⟨rfl, hmod, hneq⟩
      | ok d2 =>
        cases hc : env.call ⟨a2, d2, hh.number % U64⟩ with
        | error s =>
          simp only [getVoteInfo, hres, hsys, hp, hc, List.cons_append,
            List.nil_append, List.head?_cons] at hm
          cases hm
          exact ⟨rfl, hmod, hneq⟩
        | ok out =>
          cases hu2 : env.unpackVoteGetVoteInfo out with
          | error s =>
            simp only [getVoteInfo, hres, hsys, hp, hc, hu2, List.cons_append,
              List.nil_append, List.head?_cons] at hm
            cases hm
            exact ⟨rfl, hmod, hneq⟩
          | ok quad =>
            obtain ⟨q1, q2, q3, q4⟩ := quad
            simp only [getVoteInfo, hres, hsys, hp, hc, hu2, List.cons_append,
              List.nil_append, List.head?_cons] at hm
            cases hm
            exact ⟨rfl, hmod, hneq⟩

/-- C9 witness: at the concrete environment, the historical query at
height five sends its registry lookup at the current height nine, not at
five. -/
theorem system_contract_lookup_at_current_height_witness :
    (900 : Nat) = testEnv.mainSystemContractAddr ∧ (9 : Nat) = testCur.number ∧
    (9 : Nat) ≠ testHeader5.number := by
  have h := (system_contract_lookup_at_current_height testEnv testCur testHeader5
    5 (some 1) 55 rfl (by decide) (by decide) (by decide) (by decide) (by decide)).1
    (CallMsg.mk 900 [1] 9) (by decide)
  exact h

/-- C10: GetAllProducers dereferences sizeNumber without a nil check on
the success path, so a call that reaches the ranking step with a nil
sizeNumber panics, while a nil blockNumber on the same environment is
accepted (resolving to the current header) and the call succeeds. -/
theorem getAllProducers_nil_size_panics (env : Env) (cur : Header)
    (sysA : Address) (t : List CallMsg) (d out : Bytes)
    (addrs : List Address) (ws : List Int) (amt : Int)
    (hcur : env.chain.currentHeader = some cur)
    (hsys : getSystemContract env regContractName = (Res.ok sysA, t))
    (hpack : env.packRegGetAllProducersInfo = Except.ok d)
    (hcall : env.call ⟨sysA, d, cur.number % U64⟩ = Except.ok out)
    (hunpack : env.unpackRegGetAllProducersInfo out = Except.ok (addrs, ws, amt))
    (hlen : addrs.length = ws.length) :
    (getAllProducers env none none).1 = Res.panic ∧
    getAllProducers env none (some (-1)) =
      (Res.ok (ProducersInfo.mk (topOutput addrs ws ws.length) amt),
        t ++ [CallMsg.mk sysA d (cur.number % U64)]) := by
  have hres := resolveHeader_none_current env.chain cur hcur
  have hsel : selectAndRank addrs ws amt (some (-1)) =
      Res.ok (ProducersInfo.mk (topOutput addrs ws ws.length) amt) := by
    have hminus : bigInt64 (-1) = -1 := by decide
    have hpick : pickGetNumber ws.length amt (bigInt64 (-1)) = Res.ok ws.length := by
      rw [hminus]
      simp only [pickGetNumber]
      rw [if_pos (by omega : (-1 : Int) < 0)]
    exact selectAndRank_ok addrs ws amt (-1) ws.length hlen hpick
  constructor
  · simp only [getAllProducers, hres, hsys, hpack, hcall, hunpack]
    rfl
  · simp only [getAllProducers, hres, hsys, hpack, hcall, hunpack, hsel]

/-- C10 witness: the concrete environment reaches the ranking step; a nil
sizeNumber panics there while a nil blockNumber with sizeNumber minus one
succeeds. -/
theorem getAllProducers_nil_size_panics_witness :
    (getAllProducers testEnv none none).1 = Res.panic ∧
    getAllProducers testEnv none (some (-1)) =
      (Res.ok (ProducersInfo.mk (topOutput [100, 101, 102] [5, 5, 3] 3) 2),
        [CallMsg.mk 900 [1] 9, CallMsg.mk 901 [3] 9]) := by
  have h := getAllProducers_nil_size_panics testEnv testCur 901
    [CallMsg.mk 900 [1] 9] [3] [13] [100, 101, 102] [5, 5, 3] 2
    rfl (by decide) rfl rfl rfl (by decide)
  exact h

end DposApi
